import Mathlib

/-!
Verification of the Excalidraw note synthesizer of the obsidian-mcp
repository (src/mcp_obsidian/excalidraw.py and the inlined copy in
src/mcp_obsidian/tools.py, class SaveExcalidrawToolHandler).

The embedding is shallow: Python values are modelled by the inductive
type Val (floats as exact rationals), Python dicts by insertion-ordered
association lists, and each Python function of the repository by a Lean
function of the same shape.  Fallible Python code (statements that can
raise TypeError or AttributeError) is modelled with Option, where none
stands for the raised exception.
-/

set_option maxHeartbeats 1000000

mutual
/-- Model of a Python value as it flows through the element pipeline.
Numbers keep the int versus float distinction of Python; floats are
modelled as exact rationals. -/
inductive Val where
  | null
  | bool (b : Bool)
  | int (n : Int)
  | num (q : ℚ)
  | str (s : String)
  | list (xs : ValList)
  | dict (kvs : ValDict)
deriving DecidableEq
inductive ValList where
  | nil
  | cons (v : Val) (rest : ValList)
deriving DecidableEq
inductive ValDict where
  | nil
  | cons (k : String) (v : Val) (rest : ValDict)
deriving DecidableEq
end

/-- Build a Val list value from a Lean list. -/
def Val.ofList : List Val → Val :=
  fun xs => Val.list (go xs)
where go : List Val → ValList
  | [] => ValList.nil
  | v :: rest => ValList.cons v (go rest)

/-- Build a Val dict value from a Lean association list. -/
def Val.ofDict : List (String × Val) → Val :=
  fun kvs => Val.dict (go kvs)
where go : List (String × Val) → ValDict
  | [] => ValDict.nil
  | (k, v) :: rest => ValDict.cons k v (go rest)

/-- Lookup in a dict value, first match: Python d.get(key). -/
def ValDict.find : ValDict → String → Option Val
  | ValDict.nil, _ => none
  | ValDict.cons k v rest, key => if key = k then some v else rest.find key

/-- Python d.get(key, default) on a dict value. -/
def ValDict.findD (d : ValDict) (key : String) (dflt : Val) : Val :=
  (d.find key).getD dflt

/-- Length of a list value. -/
def ValList.length : ValList → Nat
  | ValList.nil => 0
  | ValList.cons _ rest => rest.length + 1

/-- Python truthiness of a value (bool(v)). -/
def truthy : Val → Bool
  | Val.null => false
  | Val.bool b => b
  | Val.int n => decide (n ≠ 0)
  | Val.num q => decide (q ≠ 0)
  | Val.str s => decide (s ≠ "")
  | Val.list ValList.nil => false
  | Val.list (ValList.cons _ _) => true
  | Val.dict ValDict.nil => false
  | Val.dict (ValDict.cons _ _ _) => true

/-- A raw element record or other top-level Python dict: an
insertion-ordered association list with string keys. -/
abbrev Record := List (String × Val)

/-- rget d k models the Python membership test plus d[k]: the first
entry of the record whose key is k, if any. -/
def rget : Record → String → Option Val
  | [], _ => none
  | (k, v) :: rest, key => if key = k then some v else rget rest key

/-- Python d.get(k, dflt) on a record. -/
def rgetD (d : Record) (k : String) (dflt : Val) : Val :=
  (rget d k).getD dflt

/-- Numeric view of a value, as used by Python arithmetic: ints, floats
and bools support + - * /; everything else raises TypeError (none). -/
def asNum : Val → Option ℚ
  | Val.int n => some (n : ℚ)
  | Val.num q => some q
  | Val.bool b => some (if b then 1 else 0)
  | _ => none

/-- begins p s: the list p is an initial run of the list s, that is,
Python s.startswith(p) on the character level. -/
def begins : List Char → List Char → Bool
  | [], _ => true
  | _ :: _, [] => false
  | a :: p, b :: s => if a = b then begins p s else false

/-- occursIn p s: p occurs in s as a contiguous run (Python p in s). -/
def occursIn (p : List Char) : List Char → Bool
  | [] => begins p []
  | c :: rest => begins p (c :: rest) || occursIn p rest

/-- Fuel-indexed worker for Python str.replace: scans left to right; on
a match of the (non-empty) pattern p it emits r and resumes after the
match; fuel at least the length of the input makes it total and is
invisible in the result. -/
def replaceAllF (p r : List Char) : Nat → List Char → List Char
  | _, [] => []
  | 0, s => s
  | fuel + 1, c :: rest =>
    if p ≠ [] ∧ begins p (c :: rest) = true then
      r ++ replaceAllF p r fuel (List.drop (p.length - 1) rest)
    else
      c :: replaceAllF p r fuel rest

/-- Python s.replace(p, r) for a non-empty pattern p: replaces every
occurrence of p by r, left to right, non-overlapping. -/
def replaceAll (p r s : List Char) : List Char :=
  replaceAllF p r s.length s

/-- Python s.replace(pat, rep) on strings. -/
def pyReplace (s pat rep : String) : String :=
  ⟨replaceAll pat.data rep.data s.data⟩

/-- Python s.endswith(p). -/
def ends_with (s p : String) : Bool :=
  begins p.data.reverse s.data.reverse

/-- ExcalidrawElementProcessor.sanitize_text on the character level:
text.replace with the three break variants in source order. -/
def sanitize_chars (s : List Char) : List Char :=
  replaceAll "<br />".data "\n".data
    (replaceAll "<br/>".data "\n".data
      (replaceAll "<br>".data "\n".data s))

/-- ExcalidrawElementProcessor.sanitize_text: falsy (empty) input is
returned unchanged, otherwise the three HTML break variants are
replaced by a newline. -/
def sanitize_text (s : String) : String :=
  if s = "" then s else ⟨sanitize_chars s.data⟩

/-- Single quote character used by the Python repr of strings. -/
def quoteMark : String := String.singleton (Char.ofNat 39)

mutual
/-- Python repr(v) for the values of the model: exact for None, bools,
ints and strings apart from escaping; floats display as rationals;
lists and dicts are rendered structurally from the reprs of their
entries, as Python does. -/
def pyRepr : Val → String
  | Val.null => "None"
  | Val.bool true => "True"
  | Val.bool false => "False"
  | Val.int n => toString n
  | Val.num q => toString q
  | Val.str s => quoteMark ++ s ++ quoteMark
  | Val.list xs => "[" ++ pyReprList xs ++ "]"
  | Val.dict kvs => "\x7b" ++ pyReprDict kvs ++ "\x7d"
/-- Comma-separated reprs of the entries of a list value. -/
def pyReprList : ValList → String
  | ValList.nil => ""
  | ValList.cons v ValList.nil => pyRepr v
  | ValList.cons v rest => pyRepr v ++ ", " ++ pyReprList rest
/-- Comma-separated key: value reprs of the entries of a dict value. -/
def pyReprDict : ValDict → String
  | ValDict.nil => ""
  | ValDict.cons k v ValDict.nil => quoteMark ++ k ++ quoteMark ++ ": " ++ pyRepr v
  | ValDict.cons k v rest =>
    quoteMark ++ k ++ quoteMark ++ ": " ++ pyRepr v ++ ", " ++ pyReprDict rest
end

/-- Python str(v): identical to repr(v) except that a string is
returned without quotes. -/
def pyStr : Val → String
  | Val.str s => s
  | v => pyRepr v

/-- The known_fields set of ExcalidrawElement.from_dict, in the order
the dataclass declares the fields. -/
def known_fields : List String :=
  ["id", "type", "x", "y", "width", "height", "angle",
   "strokeColor", "backgroundColor", "fillStyle", "strokeWidth",
   "strokeStyle", "roughness", "opacity", "groupIds", "frameId",
   "roundness", "seed", "version", "versionNonce", "isDeleted",
   "boundElements", "updated", "link", "locked"]

/-- The dataclass ExcalidrawElement of excalidraw.py.  Field values stay
untyped Python values (the dataclass performs no runtime checking);
extra_fields holds the unknown keys of the raw record. -/
structure ExcalidrawElement where
  id : Val
  type : Val
  x : Val
  y : Val
  width : Val
  height : Val
  angle : Val := Val.int 0
  strokeColor : Val := Val.str "#1e1e1e"
  backgroundColor : Val := Val.str "transparent"
  fillStyle : Val := Val.str "solid"
  strokeWidth : Val := Val.int 2
  strokeStyle : Val := Val.str "solid"
  roughness : Val := Val.int 1
  opacity : Val := Val.int 100
  groupIds : Val := Val.ofList []
  frameId : Val := Val.null
  roundness : Val := Val.null
  seed : Val := Val.int 1
  version : Val := Val.int 1
  versionNonce : Val := Val.int 1
  isDeleted : Val := Val.bool false
  boundElements : Val := Val.ofList []
  updated : Val := Val.int 1
  link : Val := Val.null
  locked : Val := Val.bool false
  extra_fields : Record := []
deriving DecidableEq

/-- ExcalidrawElement.from_dict.  The six core dataclass fields have no
defaults, so a record that misses one of them makes the Python
constructor raise TypeError: that rejection is the none case.  All
other known fields fall back to the dataclass defaults, and every key
outside known_fields is kept verbatim in extra_fields. -/
def ExcalidrawElement.from_dict (data : Record) : Option ExcalidrawElement := do
  let i ← rget data "id"
  let t ← rget data "type"
  let x ← rget data "x"
  let y ← rget data "y"
  let w ← rget data "width"
  let h ← rget data "height"
  some
      { id := i, type := t, x := x, y := y, width := w, height := h,
        angle := rgetD data "angle" (Val.int 0),
        strokeColor := rgetD data "strokeColor" (Val.str "#1e1e1e"),
        backgroundColor := rgetD data "backgroundColor" (Val.str "transparent"),
        fillStyle := rgetD data "fillStyle" (Val.str "solid"),
        strokeWidth := rgetD data "strokeWidth" (Val.int 2),
        strokeStyle := rgetD data "strokeStyle" (Val.str "solid"),
        roughness := rgetD data "roughness" (Val.int 1),
        opacity := rgetD data "opacity" (Val.int 100),
        groupIds := rgetD data "groupIds" (Val.ofList []),
        frameId := rgetD data "frameId" Val.null,
        roundness := rgetD data "roundness" Val.null,
        seed := rgetD data "seed" (Val.int 1),
        version := rgetD data "version" (Val.int 1),
        versionNonce := rgetD data "versionNonce" (Val.int 1),
        isDeleted := rgetD data "isDeleted" (Val.bool false),
        boundElements := rgetD data "boundElements" (Val.ofList []),
        updated := rgetD data "updated" (Val.int 1),
        link := rgetD data "link" Val.null,
        locked := rgetD data "locked" (Val.bool false),
        extra_fields := data.filter (fun kv => !(known_fields.contains kv.1)) }

/-- ExcalidrawElement.to_dict: the twenty-five known fields in the
fixed source order, then result.update(extra_fields). -/
def ExcalidrawElement.to_dict (e : ExcalidrawElement) : Record :=
  [("id", e.id), ("type", e.type), ("x", e.x), ("y", e.y),
   ("width", e.width), ("height", e.height), ("angle", e.angle),
   ("strokeColor", e.strokeColor), ("backgroundColor", e.backgroundColor),
   ("fillStyle", e.fillStyle), ("strokeWidth", e.strokeWidth),
   ("strokeStyle", e.strokeStyle), ("roughness", e.roughness),
   ("opacity", e.opacity), ("groupIds", e.groupIds),
   ("frameId", e.frameId), ("roundness", e.roundness),
   ("seed", e.seed), ("version", e.version),
   ("versionNonce", e.versionNonce), ("isDeleted", e.isDeleted),
   ("boundElements", e.boundElements), ("updated", e.updated),
   ("link", e.link), ("locked", e.locked)] ++ e.extra_fields

/-- ExcalidrawElementProcessor._extract_label_text: a dict label yields
its text entry (default empty string), any other label yields str(label)
when truthy and the empty string otherwise. -/
def extract_label_text : Val → Val
  | Val.dict d => d.findD "text" (Val.str "")
  | v => if truthy v then Val.str (pyStr v) else Val.str ""

/-- sanitize_text applied to an arbitrary Python value, as
process_element does: falsy values are returned unchanged, truthy
strings are sanitized, and a truthy non-string raises AttributeError
at text.replace (the none case). -/
def sanitize_val : Val → Option Val
  | Val.str s => some (Val.str (sanitize_text s))
  | v => if truthy v then none else some v

/-- ExcalidrawElementProcessor._create_text_element_for_label.  The
generated id is passed explicitly; 0.6 and 1.25 are the exact values of
the source literals.  Non-numeric fontSize or container geometry makes
the Python arithmetic raise TypeError (the none case). -/
def create_text_element_for_label (text_id : String)
    (container : ExcalidrawElement) (text : String)
    (original_data : Record) : Option ExcalidrawElement :=
  let fsv := rgetD original_data "fontSize" (Val.int 20)
  match asNum fsv, asNum container.x, asNum container.y,
      asNum container.width, asNum container.height with
  | some fs, some cx, some cy, some cw, some ch =>
    let text_width : ℚ := (text.length : ℚ) * fs * (0.6 : ℚ)
    let text_height : ℚ := fs * (1.25 : ℚ)
    some
      { id := Val.str text_id, type := Val.str "text",
        x := Val.num (cx + (cw - text_width) / 2),
        y := Val.num (cy + (ch - text_height) / 2),
        width := Val.num text_width, height := Val.num text_height,
        strokeColor := container.strokeColor,
        backgroundColor := Val.str "transparent",
        extra_fields :=
          [("text", Val.str text), ("fontSize", fsv),
           ("fontFamily", rgetD original_data "fontFamily" (Val.int 1)),
           ("textAlign", Val.str "center"),
           ("verticalAlign", Val.str "middle"),
           ("baseline", Val.int 18), ("containerId", container.id),
           ("originalText", Val.str text), ("autoResize", Val.bool true),
           ("lineHeight", Val.num (1.25 : ℚ))] }
  | _, _, _, _, _ => none

/-- ExcalidrawElementProcessor.process_element with the generated text
id passed explicitly.  A non-string output of sanitize_val is
necessarily falsy, so the final catch-all arm is the no-label-text
branch of the source. -/
def process_element (text_id : String) (element_data : Record) :
    Option (List ExcalidrawElement) :=
  match ExcalidrawElement.from_dict element_data with
  | none => none
  | some element =>
    match rget element_data "label" with
    | some lv =>
      if truthy lv then
        match sanitize_val (extract_label_text lv) with
        | none => none
        | some (Val.str s) =>
          if s ≠ "" then
            match create_text_element_for_label text_id element s element_data with
            | some text_element =>
              some [{ element with boundElements :=
                        (Val.ofList [Val.ofDict
                          [("type", Val.str "text"), ("id", Val.str text_id)]]) },
                    text_element]
            | none => none
          else some [element]
        | some _ => some [element]
      else some [element]
    | none => some [element]

/-- The 25-key base record assembled for every raw element by
SaveExcalidrawToolHandler._build_excalidraw_note, in source order, raw
value if present and the inline default otherwise. -/
def tool_base_element (e : Record) : Record :=
  [("id", rgetD e "id" (Val.str "")),
   ("type", rgetD e "type" (Val.str "")),
   ("x", rgetD e "x" (Val.int 0)),
   ("y", rgetD e "y" (Val.int 0)),
   ("width", rgetD e "width" (Val.int 0)),
   ("height", rgetD e "height" (Val.int 0)),
   ("angle", rgetD e "angle" (Val.int 0)),
   ("strokeColor", rgetD e "strokeColor" (Val.str "#1e1e1e")),
   ("backgroundColor", rgetD e "backgroundColor" (Val.str "transparent")),
   ("fillStyle", rgetD e "fillStyle" (Val.str "solid")),
   ("strokeWidth", rgetD e "strokeWidth" (Val.int 2)),
   ("strokeStyle", rgetD e "strokeStyle" (Val.str "solid")),
   ("roughness", rgetD e "roughness" (Val.int 1)),
   ("opacity", rgetD e "opacity" (Val.int 100)),
   ("groupIds", rgetD e "groupIds" (Val.ofList [])),
   ("frameId", rgetD e "frameId" Val.null),
   ("roundness", rgetD e "roundness" Val.null),
   ("seed", rgetD e "seed" (Val.int 1)),
   ("version", rgetD e "version" (Val.int 1)),
   ("versionNonce", rgetD e "versionNonce" (Val.int 1)),
   ("isDeleted", rgetD e "isDeleted" (Val.bool false)),
   ("boundElements", rgetD e "boundElements" (Val.ofList [])),
   ("updated", rgetD e "updated" (Val.int 1)),
   ("link", rgetD e "link" Val.null),
   ("locked", rgetD e "locked" (Val.bool false))]

/-- The arrow-or-line test of the tool handler:
element.get("type") == "arrow" or element.get("type") == "line". -/
def is_line_type (e : Record) : Bool :=
  (rgetD e "type" Val.null == Val.str "arrow")
    || (rgetD e "type" Val.null == Val.str "line")

/-- The six type-specific keys appended for arrow and line elements by
the tool handler, with the inline defaults of the source. -/
def tool_line_fields (e : Record) : Record :=
  [("points", rgetD e "points"
      (Val.ofList [Val.ofList [Val.int 0, Val.int 0],
        Val.ofList [rgetD e "width" (Val.int 100),
          rgetD e "height" (Val.int 0)]])),
   ("lastCommittedPoint", rgetD e "lastCommittedPoint" Val.null),
   ("startBinding", rgetD e "startBinding" Val.null),
   ("endBinding", rgetD e "endBinding" Val.null),
   ("startArrowhead", rgetD e "startArrowhead" Val.null),
   ("endArrowhead", rgetD e "endArrowhead" (Val.str "arrow"))]

/-- The per-element normalization of the tool handler up to and
including the type-specific arrow and line fields. -/
def tool_normalize_element (e : Record) : Record :=
  if is_line_type e then tool_base_element e ++ tool_line_fields e
  else tool_base_element e

/-- Python dict assignment d[k] = v on the ordered record model (dict
keys are unique in Python, so records reaching this code have distinct
keys): an existing key keeps its position and takes the new value, a
new key is appended at the end. -/
def dict_set : Record → String → Val → Record
  | [], k, v => [(k, v)]
  | (k1, v1) :: rest, k, v =>
    if k1 = k then (k, v) :: rest else (k1, v1) :: dict_set rest k v

/-- Folding dict_set over the entries of upd: the semantics of the
Python double-star merge of upd into a dict literal. -/
def dict_update (d upd : Record) : Record :=
  upd.foldl (fun acc kv => dict_set acc kv.1 kv.2) d

/-- The final_frontmatter dict literal of the tool handler: the two
required entries, then the caller frontmatter merged over them with the
double-star expansion. -/
def final_frontmatter (frontmatter : Record) : Record :=
  dict_update
    [("excalidraw-plugin", Val.str "parsed"),
     ("tags", rgetD frontmatter "tags" (Val.ofList [Val.str "excalidraw"]))]
    frontmatter

/-- The label arms of the text-content chain of the tool handler. -/
def tool_label_content (e : Record) : Option Val :=
  match rget e "label" with
  | some (Val.dict d) => some (d.findD "text" (Val.str ""))
  | some (Val.str s) => some (Val.str s)
  | _ => none

/-- The text-content chain of the tool handler: a present and truthy
direct text field wins, otherwise a dict label contributes its text
entry and a string label contributes itself. -/
def get_text_content (e : Record) : Option Val :=
  match rget e "text" with
  | some t => if truthy t then some t else tool_label_content e
  | none => tool_label_content e

/-- The characters Python str.strip removes, restricted to the ASCII
range the repository ever passes through this code. -/
def isPySpace (c : Char) : Bool :=
  c == ' ' || c == '\t' || c == '\n' || c == '\r'
    || c == Char.ofNat 11 || c == Char.ofNat 12

/-- Truthiness of s.strip(): s has a non-whitespace character. -/
def strip_nonempty (s : String) : Bool :=
  s.data.any (fun c => !(isPySpace c))

/-- One step of the extraction loop of the tool handler: no content or
falsy content emits nothing, truthy string content passes the strip
test and emits content, space, caret, block id, and truthy non-string
content raises AttributeError at .strip() (the outer none). -/
def text_line (content : Option Val) (block_id : String) :
    Option (Option String) :=
  match content with
  | none => some none
  | some v =>
    if truthy v then
      match v with
      | Val.str s =>
        some (if strip_nonempty s then some (s ++ " ^" ++ block_id) else none)
      | _ => none
    else some none

/-- The extraction loop of the tool handler over the raw elements; gen
is the random block-id source, consumed once per emitted line. -/
def extract_texts (gen : Nat → String) :
    List Record → Nat → Option (List String)
  | [], _ => some []
  | e :: rest, n =>
    match text_line (get_text_content e) (gen n) with
    | none => none
    | some none => extract_texts gen rest n
    | some (some line) =>
      (extract_texts gen rest (n + 1)).map (fun ls => line :: ls)

/-- Python sep.join(parts). -/
def joinSep (sep : String) : List String → String
  | [] => ""
  | [s] => s
  | s :: rest => s ++ sep ++ joinSep sep rest

/-- The Text Elements section value produced by the tool handler when
no custom text is supplied: the extracted lines joined with a blank
line between entries. -/
def text_section (gen : Nat → String) (elements : List Record) :
    Option String :=
  (extract_texts gen elements 0).map (joinSep "\n\n")

/-- The filepath normalization at the top of
SaveExcalidrawToolHandler.run_tool, applied before put_content. -/
def ensure_excalidraw_path (filepath : String) : String :=
  if ends_with filepath ".excalidraw.md" then filepath
  else if ends_with filepath ".md" then
    pyReplace filepath ".md" ".excalidraw.md"
  else filepath ++ ".excalidraw.md"

/-- Modelled from the claim wording of C1: the documented default value
for each of the nineteen non-core schema keys. -/
def claimed_defaults : Record :=
  [("angle", Val.int 0), ("strokeColor", Val.str "#1e1e1e"),
   ("backgroundColor", Val.str "transparent"), ("fillStyle", Val.str "solid"),
   ("strokeWidth", Val.int 2), ("strokeStyle", Val.str "solid"),
   ("roughness", Val.int 1), ("opacity", Val.int 100),
   ("groupIds", Val.ofList []), ("frameId", Val.null),
   ("roundness", Val.null), ("seed", Val.int 1), ("version", Val.int 1),
   ("versionNonce", Val.int 1), ("isDeleted", Val.bool false),
   ("boundElements", Val.ofList []), ("updated", Val.int 1),
   ("link", Val.null), ("locked", Val.bool false)]

/-- Modelled from the claim wording of C9: one line per element whose
content is non-empty after trimming, line shape content, space, caret,
fresh block id, input order, no deduplication. -/
def claimed_index_lines (gen : Nat → String) :
    List Record → Nat → List String
  | [], _ => []
  | e :: rest, n =>
    match get_text_content e with
    | some (Val.str s) =>
      if strip_nonempty s then
        (s ++ " ^" ++ gen n) :: claimed_index_lines gen rest (n + 1)
      else claimed_index_lines gen rest n
    | _ => claimed_index_lines gen rest n

/-- Elements whose extracted content cannot hit the AttributeError arm
of the extraction loop: content absent, a string, or falsy. -/
def content_ok (e : Record) : Bool :=
  match get_text_content e with
  | none => true
  | some (Val.str _) => true
  | some v => !(truthy v)

/-- Claim C1: for every raw element record the tool-handler
normalization is total (it is a plain function into Record, with no
rejection path even when geometry keys are missing), its output has
exactly the schema-required keys in order, every non-core key takes the
raw value when present and otherwise the documented default, and every
core key is always present and passes the raw value through. -/
theorem claim_C1_normalize_total_defaults (raw : Record) :
    (tool_base_element raw).map Prod.fst = known_fields ∧
    (∀ kv, kv ∈ claimed_defaults →
      rget (tool_base_element raw) kv.1 = some (rgetD raw kv.1 kv.2)) ∧
    (∀ k, k ∈ ["id", "type", "x", "y", "width", "height"] →
      (rget (tool_base_element raw) k).isSome = true ∧
      (∀ w, rget raw k = some w → rget (tool_base_element raw) k = some w)) := by
  refine ⟨by simp [tool_base_element, known_fields], ?_, ?_⟩
  · intro kv hkv
    simp only [claimed_defaults, List.mem_cons, List.not_mem_nil, or_false] at hkv
    rcases hkv with rfl | rfl | rfl | rfl | rfl | rfl | rfl | rfl | rfl | rfl
      | rfl | rfl | rfl | rfl | rfl | rfl | rfl | rfl | rfl <;>
      simp [tool_base_element, rget]
  · intro k hk
    simp only [List.mem_cons, List.not_mem_nil, or_false] at hk
    rcases hk with rfl | rfl | rfl | rfl | rfl | rfl <;>
      refine ⟨by simp [tool_base_element, rget], ?_⟩ <;>
      intro w hw <;> simp [tool_base_element, rget, rgetD, hw]

/-- Witness for C1 at a concrete record carrying only an x value: the
angle key takes the documented default and the x key passes through. -/
theorem claim_C1_witness :
    rget (tool_base_element [("x", Val.int 5)]) "angle" = some (Val.int 0) ∧
    rget (tool_base_element [("x", Val.int 5)]) "x" = some (Val.int 5) := by
  have h := claim_C1_normalize_total_defaults [("x", Val.int 5)]
  constructor
  · have h2 := h.2.1 ("angle", Val.int 0) (by decide)
    have hr : rgetD [("x", Val.int 5)] "angle" (Val.int 0) = Val.int 0 := by decide
    rw [hr] at h2
    exact h2
  · exact (h.2.2 "x" (by decide)).2 (Val.int 5) (by decide)

/-- Lookup distributes over record append when the key misses the
front part. -/
theorem rget_append_of_none (a b : Record) (k : String)
    (h : rget a k = none) : rget (a ++ b) k = rget b k := by
  induction a with
  | nil => simp
  | cons hd tl ih =>
    obtain ⟨k1, v1⟩ := hd
    by_cases h1 : k = k1
    · simp [rget, h1] at h
    · simp only [rget, if_neg h1] at h
      simpa [rget, if_neg h1] using ih h

/-- Lookup ignores the back part of an append when the key hits the
front part. -/
theorem rget_append_of_some (a b : Record) (k : String) (v : Val)
    (h : rget a k = some v) : rget (a ++ b) k = some v := by
  induction a with
  | nil => simp [rget] at h
  | cons hd tl ih =>
    obtain ⟨k1, v1⟩ := hd
    by_cases h1 : k = k1
    · simp only [rget, if_pos h1] at h
      simp [rget, if_pos h1, h]
    · simp only [rget, if_neg h1] at h
      simpa [rget, if_neg h1] using ih h

/-- A key absent from the key list is absent from the record. -/
theorem rget_eq_none_of_not_mem (d : Record) (k : String)
    (h : k ∉ d.map Prod.fst) : rget d k = none := by
  induction d with
  | nil => simp [rget]
  | cons hd tl ih =>
    obtain ⟨k1, v1⟩ := hd
    simp only [List.map_cons, List.mem_cons] at h
    push_neg at h
    simp [rget, h.1, ih h.2]

/-- Effect of dict_set on lookups: the written key reads back the new
value and every other key is untouched. -/
theorem rget_dict_set (d : Record) (k k2 : String) (v : Val) :
    rget (dict_set d k v) k2 = if k2 = k then some v else rget d k2 := by
  induction d with
  | nil => simp [dict_set, rget]
  | cons hd tl ih =>
    obtain ⟨k1, v1⟩ := hd
    by_cases h1 : k1 = k
    · subst h1
      by_cases h2 : k2 = k1 <;> simp [dict_set, rget, h2]
    · by_cases h2 : k2 = k1
      · subst h2
        have hne : ¬k2 = k := fun hc => h1 (hc ▸ rfl)
        simp [dict_set, h1, rget, hne]
      · simp [dict_set, h1, rget, h2, ih]

/-- Keys absent from the update map read from the base dict after the
double-star merge. -/
theorem rget_dict_update_of_none (d upd : Record) (k : String)
    (h : rget upd k = none) : rget (dict_update d upd) k = rget d k := by
  induction upd generalizing d with
  | nil => simp [dict_update]
  | cons hd tl ih =>
    obtain ⟨k1, v1⟩ := hd
    by_cases h1 : k = k1
    · simp [rget, h1] at h
    · simp only [rget, if_neg h1] at h
      have : dict_update d ((k1, v1) :: tl) = dict_update (dict_set d k1 v1) tl := by
        simp [dict_update]
      rw [this, ih _ h, rget_dict_set, if_neg h1]

/-- Keys present in a duplicate-free update map read the update value
after the double-star merge. -/
theorem rget_dict_update_of_some (d upd : Record) (k : String) (v : Val)
    (h : rget upd k = some v) (hnd : (upd.map Prod.fst).Nodup) :
    rget (dict_update d upd) k = some v := by
  induction upd generalizing d with
  | nil => simp [rget] at h
  | cons hd tl ih =>
    obtain ⟨k1, v1⟩ := hd
    simp only [List.map_cons, List.nodup_cons] at hnd
    have hstep : dict_update d ((k1, v1) :: tl) = dict_update (dict_set d k1 v1) tl := by
      simp [dict_update]
    by_cases h1 : k = k1
    · subst h1
      have h' : v1 = v := by simpa [rget] using h
      subst h'
      have habs : rget tl k = none :=
        rget_eq_none_of_not_mem tl k hnd.1
      rw [hstep, rget_dict_update_of_none _ _ _ habs, rget_dict_set, if_pos rfl]
    · simp only [rget, if_neg h1] at h
      rw [hstep, ih _ h hnd.2]

/-- Counterexample to C3: an arrow with width 100 and height 50 and no
points gets the default points value 0 0, 100 50 from the code, not the
0 0, width 0 shape the claim states. -/
theorem claim_C3_counterexample :
    rget (tool_normalize_element
        [("type", Val.str "arrow"), ("width", Val.int 100), ("height", Val.int 50)])
      "points" =
      some (Val.ofList [Val.ofList [Val.int 0, Val.int 0],
        Val.ofList [Val.int 100, Val.int 50]]) ∧
    (Val.ofList [Val.ofList [Val.int 0, Val.int 0],
        Val.ofList [Val.int 100, Val.int 50]] ≠
      Val.ofList [Val.ofList [Val.int 0, Val.int 0],
        Val.ofList [Val.int 100, Val.int 0]]) := by
  decide

/-- Claim C3 as amended: for every arrow or line element the
normalization also populates points, lastCommittedPoint, startBinding,
endBinding, startArrowhead (default null) and endArrowhead (default
the string arrow); the default for points is 0 0 paired with width
height, where width falls back to 100 and height to 0 when absent, so
the claimed shape 0 0, width 0 holds exactly when height is 0. -/
theorem claim_C3_line_fields (e : Record) (h : is_line_type e = true) :
    rget (tool_normalize_element e) "points" =
      some (rgetD e "points" (Val.ofList [Val.ofList [Val.int 0, Val.int 0],
        Val.ofList [rgetD e "width" (Val.int 100),
          rgetD e "height" (Val.int 0)]])) ∧
    rget (tool_normalize_element e) "lastCommittedPoint" =
      some (rgetD e "lastCommittedPoint" Val.null) ∧
    rget (tool_normalize_element e) "startBinding" =
      some (rgetD e "startBinding" Val.null) ∧
    rget (tool_normalize_element e) "endBinding" =
      some (rgetD e "endBinding" Val.null) ∧
    rget (tool_normalize_element e) "startArrowhead" =
      some (rgetD e "startArrowhead" Val.null) ∧
    rget (tool_normalize_element e) "endArrowhead" =
      some (rgetD e "endArrowhead" (Val.str "arrow")) := by
  unfold tool_normalize_element
  rw [if_pos (by simp [h])]
  refine ⟨?_, ?_, ?_, ?_, ?_, ?_⟩ <;>
    rw [rget_append_of_none _ _ _ (by simp [tool_base_element, rget])] <;>
    simp [tool_line_fields, rget]

/-- Witness for C3 at the scenario of the claim: an arrow with width
100 and height 0 and no points normalizes to points 0 0, 100 0. -/
theorem claim_C3_witness :
    rget (tool_normalize_element
        [("type", Val.str "arrow"), ("width", Val.int 100), ("height", Val.int 0)])
      "points" =
      some (Val.ofList [Val.ofList [Val.int 0, Val.int 0],
        Val.ofList [Val.int 100, Val.int 0]]) := by
  have h := (claim_C3_line_fields
    [("type", Val.str "arrow"), ("width", Val.int 100), ("height", Val.int 0)]
    (by decide)).1
  rw [h]
  decide

/-- Counterexample to C4: caller frontmatter that explicitly sets tags
to the empty list wins the merge, so the emitted tags value is the
empty (falsy) sequence, not a non-empty one. -/
theorem claim_C4_counterexample :
    rget (final_frontmatter [("tags", Val.ofList [])]) "tags" =
      some (Val.ofList []) ∧
    truthy (Val.ofList []) = false := by
  constructor
  · have h : rget [("tags", Val.ofList [])] "tags" = some (Val.ofList []) := by decide
    exact rget_dict_update_of_some _ _ _ _ h (by decide)
  · decide

/-- Claim C4 as amended: for every caller frontmatter mapping (with the
unique keys of a Python dict) the assembled frontmatter always carries
a tags key; its value is exactly the caller value when the caller
supplies tags (even the empty list), and the default excalidraw list
otherwise; on every other key a caller entry wins the shallow merge. -/
theorem claim_C4_tags_key (fm : Record) (hnd : (fm.map Prod.fst).Nodup) :
    rget (final_frontmatter fm) "tags" =
      some (rgetD fm "tags" (Val.ofList [Val.str "excalidraw"])) ∧
    (∀ k v, rget fm k = some v → rget (final_frontmatter fm) k = some v) := by
  constructor
  · cases htags : rget fm "tags" with
    | some t =>
      have h := rget_dict_update_of_some
        [("excalidraw-plugin", Val.str "parsed"),
         ("tags", rgetD fm "tags" (Val.ofList [Val.str "excalidraw"]))]
        fm "tags" t htags hnd
      rw [final_frontmatter, h, rgetD, htags]
      rfl
    | none =>
      have h := rget_dict_update_of_none
        [("excalidraw-plugin", Val.str "parsed"),
         ("tags", rgetD fm "tags" (Val.ofList [Val.str "excalidraw"]))]
        fm "tags" htags
      rw [final_frontmatter, h]
      simp [rget]
  · intro k v hv
    exact rget_dict_update_of_some _ _ _ _ hv hnd

/-- Witness for C4 at a concrete caller frontmatter with a title and a
custom tags list: the custom tags value survives and the title entry
wins the merge. -/
theorem claim_C4_witness :
    rget (final_frontmatter
        [("title", Val.str "T"), ("tags", Val.ofList [Val.str "x"])]) "tags" =
      some (Val.ofList [Val.str "x"]) ∧
    rget (final_frontmatter
        [("title", Val.str "T"), ("tags", Val.ofList [Val.str "x"])]) "title" =
      some (Val.str "T") := by
  have h := claim_C4_tags_key
    [("title", Val.str "T"), ("tags", Val.ofList [Val.str "x"])] (by decide)
  constructor
  · have h1 := h.1
    have hr : rgetD [("title", Val.str "T"), ("tags", Val.ofList [Val.str "x"])]
        "tags" (Val.ofList [Val.str "excalidraw"]) = Val.ofList [Val.str "x"] := by
      decide
    rw [hr] at h1
    exact h1
  · exact h.2 "title" (Val.str "T") (by decide)

/-- Filtering a record down to its unknown keys does not change the
lookup of an unknown key. -/
theorem rget_filter_unknown (d : Record) (k : String)
    (hk : k ∉ known_fields) :
    rget (d.filter (fun kv => !(known_fields.contains kv.1))) k = rget d k := by
  induction d with
  | nil => rfl
  | cons hd tl ih =>
    obtain ⟨k1, v1⟩ := hd
    by_cases h1 : k = k1
    · subst h1
      simp [List.filter_cons, hk, rget]
    · by_cases h2 : k1 ∈ known_fields <;>
        simp [List.filter_cons, h2, rget, h1] <;>
        simpa using ih

/-- Claim C2: every field of a raw record outside the known schema is
preserved verbatim in extra_fields and re-emitted by to_dict with the
same value, and parsing the serialized element back with from_dict
yields a structurally equal element (same ids, same field sets), so
the element list embedded in the scene graph round-trips.  Unknown-field
collisions are impossible on this path because from_dict itself
separates known and unknown keys. -/
theorem claim_C2_unknown_fields_roundtrip (d : Record) (e : ExcalidrawElement)
    (h : ExcalidrawElement.from_dict d = some e) :
    (∀ k, k ∉ known_fields →
      rget (ExcalidrawElement.to_dict e) k = rget d k) ∧
    ExcalidrawElement.from_dict (ExcalidrawElement.to_dict e) = some e := by
  rw [ExcalidrawElement.from_dict] at h
  simp only [bind, Option.bind_eq_some, Option.some.injEq] at h
  obtain ⟨i, hid, t, hty, x, hx, y, hy, w, hw, hh, hhh, he⟩ := h
  subst he
  constructor
  · intro k hk
    rw [ExcalidrawElement.to_dict]
    rw [rget_append_of_none _ _ _
      (rget_eq_none_of_not_mem _ _ (by simpa [known_fields] using hk))]
    exact rget_filter_unknown d k hk
  · rw [ExcalidrawElement.to_dict, ExcalidrawElement.from_dict]
    simp [rget, rgetD, List.filter_append, List.filter_filter,
      List.filter_cons, known_fields]

/-- Witness for C2 at a concrete record with the unknown key custom:
from_dict succeeds, the unknown key is re-emitted with the same value,
and the serialized element parses back to the same element. -/
theorem claim_C2_witness :
    ExcalidrawElement.from_dict
        [("id", Val.str "e1"), ("type", Val.str "rectangle"), ("x", Val.int 0),
         ("y", Val.int 0), ("width", Val.int 10), ("height", Val.int 5),
         ("custom", Val.int 7)] =
      some { id := Val.str "e1", type := Val.str "rectangle", x := Val.int 0,
             y := Val.int 0, width := Val.int 10, height := Val.int 5,
             extra_fields := [("custom", Val.int 7)] } ∧
    rget (ExcalidrawElement.to_dict
        { id := Val.str "e1", type := Val.str "rectangle", x := Val.int 0,
          y := Val.int 0, width := Val.int 10, height := Val.int 5,
          extra_fields := [("custom", Val.int 7)] }) "custom" =
      some (Val.int 7) ∧
    ExcalidrawElement.from_dict (ExcalidrawElement.to_dict
        { id := Val.str "e1", type := Val.str "rectangle", x := Val.int 0,
          y := Val.int 0, width := Val.int 10, height := Val.int 5,
          extra_fields := [("custom", Val.int 7)] }) =
      some { id := Val.str "e1", type := Val.str "rectangle", x := Val.int 0,
             y := Val.int 0, width := Val.int 10, height := Val.int 5,
             extra_fields := [("custom", Val.int 7)] } := by
  have h := claim_C2_unknown_fields_roundtrip
    [("id", Val.str "e1"), ("type", Val.str "rectangle"), ("x", Val.int 0),
     ("y", Val.int 0), ("width", Val.int 10), ("height", Val.int 5),
     ("custom", Val.int 7)]
    { id := Val.str "e1", type := Val.str "rectangle", x := Val.int 0,
      y := Val.int 0, width := Val.int 10, height := Val.int 5,
      extra_fields := [("custom", Val.int 7)] }
    (by decide)
  refine ⟨by decide, ?_, h.2⟩
  rw [h.1 "custom" (by decide)]
  decide

/-- Claim C5: for a container with numeric geometry and fontSize (taken
from the raw record, default 20) the synthesized text element has width
len(text) times fontSize times 0.6 and height fontSize times 1.25, and
its position satisfies the exact centering identity on both axes; the
expansion itself is a pure function of the id, container, label text
and raw record by construction. -/
theorem claim_C5_label_centering (text_id : String)
    (container : ExcalidrawElement) (text : String) (orig : Record)
    (te : ExcalidrawElement) (fs cx cy cw ch : ℚ)
    (hfs : asNum (rgetD orig "fontSize" (Val.int 20)) = some fs)
    (hcx : asNum container.x = some cx)
    (hcy : asNum container.y = some cy)
    (hcw : asNum container.width = some cw)
    (hch : asNum container.height = some ch)
    (h : create_text_element_for_label text_id container text orig = some te) :
    te.x = Val.num (cx + (cw - (text.length : ℚ) * fs * (0.6 : ℚ)) / 2) ∧
    te.y = Val.num (cy + (ch - fs * (1.25 : ℚ)) / 2) ∧
    te.width = Val.num ((text.length : ℚ) * fs * (0.6 : ℚ)) ∧
    te.height = Val.num (fs * (1.25 : ℚ)) ∧
    (cx + (cw - (text.length : ℚ) * fs * (0.6 : ℚ)) / 2)
        + ((text.length : ℚ) * fs * (0.6 : ℚ)) / 2 = cx + cw / 2 ∧
    (cy + (ch - fs * (1.25 : ℚ)) / 2) + (fs * (1.25 : ℚ)) / 2 = cy + ch / 2 := by
  simp only [create_text_element_for_label] at h
  rw [hfs, hcx, hcy, hcw, hch] at h
  simp only [Option.some.injEq] at h
  subst h
  refine ⟨rfl, rfl, rfl, rfl, by ring, by ring⟩

/-- Witness for C5: a 100 by 50 container at the origin with the label
text Hi and default font size 20 yields a 24 by 25 text box at 38 and
25 over 2, and both centering identities hold there. -/
theorem claim_C5_witness :
    create_text_element_for_label "T1"
        { id := Val.str "r1", type := Val.str "rectangle", x := Val.int 0,
          y := Val.int 0, width := Val.int 100, height := Val.int 50 }
        "Hi" [] =
      some { id := Val.str "T1", type := Val.str "text",
             x := Val.num 38, y := Val.num (25 / 2),
             width := Val.num 24, height := Val.num 25,
             extra_fields :=
               [("text", Val.str "Hi"), ("fontSize", Val.int 20),
                ("fontFamily", Val.int 1), ("textAlign", Val.str "center"),
                ("verticalAlign", Val.str "middle"), ("baseline", Val.int 18),
                ("containerId", Val.str "r1"), ("originalText", Val.str "Hi"),
                ("autoResize", Val.bool true),
                ("lineHeight", Val.num (1.25 : ℚ))] } ∧
    (38 : ℚ) + 24 / 2 = 0 + 100 / 2 ∧ (25 : ℚ) / 2 + 25 / 2 = 0 + 50 / 2 := by
  have hlen : ("Hi" : String).length = 2 := by decide
  have hcr : create_text_element_for_label "T1"
      { id := Val.str "r1", type := Val.str "rectangle", x := Val.int 0,
        y := Val.int 0, width := Val.int 100, height := Val.int 50 }
      "Hi" [] =
      some { id := Val.str "T1", type := Val.str "text",
             x := Val.num 38, y := Val.num (25 / 2),
             width := Val.num 24, height := Val.num 25,
             extra_fields :=
               [("text", Val.str "Hi"), ("fontSize", Val.int 20),
                ("fontFamily", Val.int 1), ("textAlign", Val.str "center"),
                ("verticalAlign", Val.str "middle"), ("baseline", Val.int 18),
                ("containerId", Val.str "r1"), ("originalText", Val.str "Hi"),
                ("autoResize", Val.bool true),
                ("lineHeight", Val.num (1.25 : ℚ))] } := by
    simp only [create_text_element_for_label, rgetD, rget, asNum,
      Option.getD_none, Option.some.injEq, ExcalidrawElement.mk.injEq, hlen]
    norm_num
  have h := claim_C5_label_centering "T1"
    { id := Val.str "r1", type := Val.str "rectangle", x := Val.int 0,
      y := Val.int 0, width := Val.int 100, height := Val.int 50 }
    "Hi" [] _ 20 0 0 100 50 (by norm_num [rgetD, rget, asNum])
    (by norm_num [asNum]) (by norm_num [asNum]) (by norm_num [asNum])
    (by norm_num [asNum]) hcr
  exact ⟨hcr, by norm_num, by norm_num⟩

/-- Claim C6: when the label of a container yields non-empty sanitized
text and the text element is created, process_element returns exactly
the container followed by the one synthesized text element; the
container keeps every field except boundElements, which is replaced by
the single text reference; and the text element points back at the
container through containerId and has type text. -/
theorem claim_C6_expansion_effect (text_id : String) (data : Record)
    (el te : ExcalidrawElement) (lv : Val) (s : String)
    (hfd : ExcalidrawElement.from_dict data = some el)
    (hlv : rget data "label" = some lv)
    (htr : truthy lv = true)
    (hsan : sanitize_val (extract_label_text lv) = some (Val.str s))
    (hs : s ≠ "")
    (hcr : create_text_element_for_label text_id el s data = some te) :
    process_element text_id data =
      some [{ el with boundElements :=
                (Val.ofList [Val.ofDict
                  [("type", Val.str "text"), ("id", Val.str text_id)]]) },
            te] ∧
    rget te.extra_fields "containerId" = some el.id ∧
    te.type = Val.str "text" ∧
    te.id = Val.str text_id := by
  have hmain : process_element text_id data =
      some [{ el with boundElements :=
                (Val.ofList [Val.ofDict
                  [("type", Val.str "text"), ("id", Val.str text_id)]]) },
            te] := by
    rw [process_element, hfd]
    simp only [hlv, htr, if_true, hsan, hcr, ne_eq, hs, not_false_eq_true]
  refine ⟨hmain, ?_, ?_, ?_⟩ <;>
  · simp only [create_text_element_for_label] at hcr
    rcases h1 : asNum (rgetD data "fontSize" (Val.int 20)) with _ | fs <;> rw [h1] at hcr <;>
      rcases h2 : asNum el.x with _ | cx <;> rw [h2] at hcr <;>
      rcases h3 : asNum el.y with _ | cy <;> rw [h3] at hcr <;>
      rcases h4 : asNum el.width with _ | cw <;> rw [h4] at hcr <;>
      rcases h5 : asNum el.height with _ | ch <;> rw [h5] at hcr <;>
      simp only [Option.some.injEq] at hcr <;> try exact absurd hcr (by simp)
    all_goals (subst hcr; simp [rget])

/-- Witness for C6: a concrete labeled rectangle expands to exactly the
container (with its boundElements replaced by the single text
reference) followed by the synthesized text element, and the text
element points back at the container. -/
theorem claim_C6_witness :
    process_element "T1"
        [("id", Val.str "r1"), ("type", Val.str "rectangle"), ("x", Val.int 0),
         ("y", Val.int 0), ("width", Val.int 100), ("height", Val.int 50),
         ("label", Val.str "Hi")] =
      some [{ id := Val.str "r1", type := Val.str "rectangle", x := Val.int 0,
              y := Val.int 0, width := Val.int 100, height := Val.int 50,
              boundElements := (Val.ofList [Val.ofDict
                [("type", Val.str "text"), ("id", Val.str "T1")]]),
              extra_fields := [("label", Val.str "Hi")] },
            { id := Val.str "T1", type := Val.str "text",
              x := Val.num 38, y := Val.num (25 / 2),
              width := Val.num 24, height := Val.num 25,
              extra_fields :=
                [("text", Val.str "Hi"), ("fontSize", Val.int 20),
                 ("fontFamily", Val.int 1), ("textAlign", Val.str "center"),
                 ("verticalAlign", Val.str "middle"), ("baseline", Val.int 18),
                 ("containerId", Val.str "r1"), ("originalText", Val.str "Hi"),
                 ("autoResize", Val.bool true),
                 ("lineHeight", Val.num (1.25 : ℚ))] }] ∧
    rget [("text", Val.str "Hi"), ("fontSize", Val.int 20),
          ("fontFamily", Val.int 1), ("textAlign", Val.str "center"),
          ("verticalAlign", Val.str "middle"), ("baseline", Val.int 18),
          ("containerId", Val.str "r1"), ("originalText", Val.str "Hi"),
          ("autoResize", Val.bool true),
          ("lineHeight", Val.num (1.25 : ℚ))] "containerId" =
      some (Val.str "r1") := by
  have hlen : ("Hi" : String).length = 2 := by decide
  have h20 : rgetD
      [("id", Val.str "r1"), ("type", Val.str "rectangle"), ("x", Val.int 0),
       ("y", Val.int 0), ("width", Val.int 100), ("height", Val.int 50),
       ("label", Val.str "Hi")] "fontSize" (Val.int 20) = Val.int 20 := by decide
  have hff : rgetD
      [("id", Val.str "r1"), ("type", Val.str "rectangle"), ("x", Val.int 0),
       ("y", Val.int 0), ("width", Val.int 100), ("height", Val.int 50),
       ("label", Val.str "Hi")] "fontFamily" (Val.int 1) = Val.int 1 := by decide
  have hcr : create_text_element_for_label "T1"
      { id := Val.str "r1", type := Val.str "rectangle", x := Val.int 0,
        y := Val.int 0, width := Val.int 100, height := Val.int 50,
        extra_fields := [("label", Val.str "Hi")] } "Hi"
      [("id", Val.str "r1"), ("type", Val.str "rectangle"), ("x", Val.int 0),
       ("y", Val.int 0), ("width", Val.int 100), ("height", Val.int 50),
       ("label", Val.str "Hi")] =
      some { id := Val.str "T1", type := Val.str "text",
             x := Val.num 38, y := Val.num (25 / 2),
             width := Val.num 24, height := Val.num 25,
             extra_fields :=
               [("text", Val.str "Hi"), ("fontSize", Val.int 20),
                ("fontFamily", Val.int 1), ("textAlign", Val.str "center"),
                ("verticalAlign", Val.str "middle"), ("baseline", Val.int 18),
                ("containerId", Val.str "r1"), ("originalText", Val.str "Hi"),
                ("autoResize", Val.bool true),
                ("lineHeight", Val.num (1.25 : ℚ))] } := by
    simp only [create_text_element_for_label, h20, hff, asNum, hlen,
      Option.some.injEq, ExcalidrawElement.mk.injEq]
    norm_num
  have h := claim_C6_expansion_effect "T1"
    [("id", Val.str "r1"), ("type", Val.str "rectangle"), ("x", Val.int 0),
     ("y", Val.int 0), ("width", Val.int 100), ("height", Val.int 50),
     ("label", Val.str "Hi")]
    { id := Val.str "r1", type := Val.str "rectangle", x := Val.int 0,
      y := Val.int 0, width := Val.int 100, height := Val.int 50,
      extra_fields := [("label", Val.str "Hi")] }
    _ (Val.str "Hi") "Hi" (by decide) (by decide) (by decide) (by decide)
    (by decide) hcr
  exact ⟨h.1, h.2.1⟩

/-- Counterexample to C8: the label 42 is neither a mapping nor a
string, yet expansion is not skipped: str(label) gives the text 42 and
a text element is synthesized, so the container is not returned
unchanged. -/
theorem claim_C8_counterexample :
    process_element "T1"
        [("id", Val.str "c1"), ("type", Val.str "rectangle"), ("x", Val.int 0),
         ("y", Val.int 0), ("width", Val.int 100), ("height", Val.int 50),
         ("label", Val.int 42)] =
      some [{ id := Val.str "c1", type := Val.str "rectangle", x := Val.int 0,
              y := Val.int 0, width := Val.int 100, height := Val.int 50,
              boundElements := (Val.ofList [Val.ofDict
                [("type", Val.str "text"), ("id", Val.str "T1")]]),
              extra_fields := [("label", Val.int 42)] },
            { id := Val.str "T1", type := Val.str "text",
              x := Val.num 38, y := Val.num (25 / 2),
              width := Val.num 24, height := Val.num 25,
              extra_fields :=
                [("text", Val.str "42"), ("fontSize", Val.int 20),
                 ("fontFamily", Val.int 1), ("textAlign", Val.str "center"),
                 ("verticalAlign", Val.str "middle"), ("baseline", Val.int 18),
                 ("containerId", Val.str "c1"), ("originalText", Val.str "42"),
                 ("autoResize", Val.bool true),
                 ("lineHeight", Val.num (1.25 : ℚ))] }] := by
  have hfd : ExcalidrawElement.from_dict
      [("id", Val.str "c1"), ("type", Val.str "rectangle"), ("x", Val.int 0),
       ("y", Val.int 0), ("width", Val.int 100), ("height", Val.int 50),
       ("label", Val.int 42)] =
      some { id := Val.str "c1", type := Val.str "rectangle", x := Val.int 0,
             y := Val.int 0, width := Val.int 100, height := Val.int 50,
             extra_fields := [("label", Val.int 42)] } := by decide
  have hlab : rget
      [("id", Val.str "c1"), ("type", Val.str "rectangle"), ("x", Val.int 0),
       ("y", Val.int 0), ("width", Val.int 100), ("height", Val.int 50),
       ("label", Val.int 42)] "label" = some (Val.int 42) := by decide
  have hsan : sanitize_val (extract_label_text (Val.int 42)) =
      some (Val.str "42") := by decide
  have hlen : ("42" : String).length = 2 := by decide
  have h20 : rgetD
      [("id", Val.str "c1"), ("type", Val.str "rectangle"), ("x", Val.int 0),
       ("y", Val.int 0), ("width", Val.int 100), ("height", Val.int 50),
       ("label", Val.int 42)] "fontSize" (Val.int 20) = Val.int 20 := by decide
  have hff : rgetD
      [("id", Val.str "c1"), ("type", Val.str "rectangle"), ("x", Val.int 0),
       ("y", Val.int 0), ("width", Val.int 100), ("height", Val.int 50),
       ("label", Val.int 42)] "fontFamily" (Val.int 1) = Val.int 1 := by decide
  have hcr : create_text_element_for_label "T1"
      { id := Val.str "c1", type := Val.str "rectangle", x := Val.int 0,
        y := Val.int 0, width := Val.int 100, height := Val.int 50,
        extra_fields := [("label", Val.int 42)] } "42"
      [("id", Val.str "c1"), ("type", Val.str "rectangle"), ("x", Val.int 0),
       ("y", Val.int 0), ("width", Val.int 100), ("height", Val.int 50),
       ("label", Val.int 42)] =
      some { id := Val.str "T1", type := Val.str "text",
             x := Val.num 38, y := Val.num (25 / 2),
             width := Val.num 24, height := Val.num 25,
             extra_fields :=
               [("text", Val.str "42"), ("fontSize", Val.int 20),
                ("fontFamily", Val.int 1), ("textAlign", Val.str "center"),
                ("verticalAlign", Val.str "middle"), ("baseline", Val.int 18),
                ("containerId", Val.str "c1"), ("originalText", Val.str "42"),
                ("autoResize", Val.bool true),
                ("lineHeight", Val.num (1.25 : ℚ))] } := by
    simp only [create_text_element_for_label, h20, hff, asNum, hlen,
      Option.some.injEq, ExcalidrawElement.mk.injEq]
    norm_num
  rw [process_element, hfd]
  simp only [hlab, hsan, hcr]
  simp [truthy, hcr]

/-- Claim C8 as amended: a mapping label contributes its text entry and
a plain string label contributes itself; a falsy label (None, zero,
empty containers, the empty string) is silently skipped, returning the
container unchanged; but a truthy label that is neither a mapping nor a
string is not skipped: it is converted with str() and used as label
text, so it can produce a text element. -/
theorem claim_C8_label_extraction :
    (∀ d : ValDict, extract_label_text (Val.dict d) = d.findD "text" (Val.str "")) ∧
    (∀ s : String, extract_label_text (Val.str s) = Val.str s) ∧
    (∀ (lv : Val) (tid : String) (data : Record) (el : ExcalidrawElement),
      truthy lv = false → ExcalidrawElement.from_dict data = some el →
      rget data "label" = some lv → process_element tid data = some [el]) ∧
    (∀ lv : Val, truthy lv = true → (∀ kvs, lv ≠ Val.dict kvs) →
      extract_label_text lv = Val.str (pyStr lv)) := by
  refine ⟨fun d => rfl, ?_, ?_, ?_⟩
  · intro s
    by_cases hs : s = "" <;> simp [extract_label_text, truthy, pyStr, hs]
  · intro lv tid data el hf hfd hlab
    rw [process_element, hfd]
    simp [hlab, hf]
  · intro lv htr hnd
    cases lv with
    | dict kvs => exact absurd rfl (hnd kvs)
    | _ => simp [extract_label_text, htr]

/-- Witness for C8: a string label passes through unchanged; a falsy
integer label on a concrete rectangle is skipped and the container is
returned alone; a truthy integer label stringifies. -/
theorem claim_C8_witness :
    extract_label_text (Val.str "hey") = Val.str "hey" ∧
    process_element "T1"
        [("id", Val.str "c1"), ("type", Val.str "rectangle"), ("x", Val.int 0),
         ("y", Val.int 0), ("width", Val.int 100), ("height", Val.int 50),
         ("label", Val.int 0)] =
      some [{ id := Val.str "c1", type := Val.str "rectangle", x := Val.int 0,
              y := Val.int 0, width := Val.int 100, height := Val.int 50,
              extra_fields := [("label", Val.int 0)] }] ∧
    extract_label_text (Val.int 42) = Val.str (pyStr (Val.int 42)) := by
  refine ⟨claim_C8_label_extraction.2.1 "hey", ?_, ?_⟩
  · exact claim_C8_label_extraction.2.2.1 (Val.int 0) "T1" _ _ (by decide)
      (by decide) (by decide)
  · exact claim_C8_label_extraction.2.2.2 (Val.int 42) (by decide)
      (fun kvs h => by cases h)

/-- The extraction loop agrees with the claimed line discipline on
every element list whose contents are strings or falsy. -/
theorem extract_texts_eq_claimed (gen : Nat → String) (es : List Record)
    (n : Nat) (h : ∀ e ∈ es, content_ok e = true) :
    extract_texts gen es n = some (claimed_index_lines gen es n) := by
  induction es generalizing n with
  | nil => simp [extract_texts, claimed_index_lines]
  | cons e rest ih =>
    have he := h e (List.mem_cons_self e rest)
    have hrest : ∀ x ∈ rest, content_ok x = true :=
      fun x hx => h x (List.mem_cons_of_mem e hx)
    rw [extract_texts, claimed_index_lines]
    cases hc : get_text_content e with
    | none => simp [text_line, hc, ih _ hrest]
    | some v =>
      cases v with
      | str s =>
        by_cases hs : s = ""
        · subst hs
          simp [text_line, truthy, strip_nonempty, ih _ hrest]
        · have htr : truthy (Val.str s) = true := by simp [truthy, hs]
          by_cases hst : strip_nonempty s = true
          · simp [text_line, htr, hst, ih _ hrest]
          · simp [text_line, htr, hst, ih _ hrest,
              Bool.not_eq_true _ ▸ hst]
      | _ =>
        rw [content_ok, hc] at he
        rw [Bool.not_eq_true'] at he
        simp [text_line, he, ih _ hrest]

/-- Claim C9: on every element list whose text contents are strings (or
absent or falsy), the extraction maps each element whose content is
non-empty after trimming to exactly one line of the form content,
space, caret, fresh block id, in input order, without deduplication,
and the Text Elements section is those lines joined by a blank line. -/
theorem claim_C9_text_index (gen : Nat → String) (es : List Record) (n : Nat)
    (h : ∀ e ∈ es, content_ok e = true) :
    extract_texts gen es n = some (claimed_index_lines gen es n) ∧
    text_section gen es = some (joinSep "\n\n" (claimed_index_lines gen es 0)) := by
  refine ⟨extract_texts_eq_claimed gen es n h, ?_⟩
  rw [text_section, extract_texts_eq_claimed gen es 0 h]
  rfl

/-- Witness for C9: four concrete elements (direct text, string label,
whitespace-only text, and a mapping label that duplicates the first
content) produce three lines in input order with fresh sequential ids
and no deduplication, joined by blank lines. -/
theorem claim_C9_witness :
    extract_texts (fun k => toString k)
        [[("text", Val.str "Hello")],
         [("label", Val.str "World")],
         [("text", Val.str "  ")],
         [("label", Val.ofDict [("text", Val.str "Hello")])]] 0 =
      some ["Hello ^0", "World ^1", "Hello ^2"] ∧
    text_section (fun k => toString k)
        [[("text", Val.str "Hello")],
         [("label", Val.str "World")],
         [("text", Val.str "  ")],
         [("label", Val.ofDict [("text", Val.str "Hello")])]] =
      some "Hello ^0\n\nWorld ^1\n\nHello ^2" := by
  have h := claim_C9_text_index (fun k => toString k)
    [[("text", Val.str "Hello")],
     [("label", Val.str "World")],
     [("text", Val.str "  ")],
     [("label", Val.ofDict [("text", Val.str "Hello")])]] 0 (by decide)
  constructor
  · rw [h.1]
    decide
  · rw [h.2]
    decide

/-- The fuel of replaceAllF is invisible once it is at least the
length of the input. -/
theorem replaceAllF_irrel (p r : List Char) :
    ∀ (f1 f2 : Nat) (s : List Char), s.length ≤ f1 → s.length ≤ f2 →
    replaceAllF p r f1 s = replaceAllF p r f2 s := by
  intro f1
  induction f1 with
  | zero =>
    intro f2 s h1 _
    have : s = [] := List.length_eq_zero.mp (Nat.le_zero.mp h1)
    subst this
    cases f2 <;> rfl
  | succ f ih =>
    intro f2 s h1 h2
    cases s with
    | nil => cases f2 <;> rfl
    | cons c rest =>
      cases f2 with
      | zero => simp at h2
      | succ g =>
        rw [replaceAllF, replaceAllF]
        simp only [List.length_cons, Nat.succ_le_succ_iff] at h1 h2
        by_cases hcond : p ≠ [] ∧ begins p (c :: rest) = true
        · rw [if_pos hcond, if_pos hcond]
          have hd : (List.drop (p.length - 1) rest).length ≤ rest.length := by
            simp [List.length_drop]
          rw [ih g _ (le_trans hd h1) (le_trans hd h2)]
        · rw [if_neg hcond, if_neg hcond]
          rw [ih g rest h1 h2]

/-- Unfolding equation of replaceAll on a cons cell. -/
theorem replaceAll_cons (p r : List Char) (c : Char) (rest : List Char) :
    replaceAll p r (c :: rest) =
      if p ≠ [] ∧ begins p (c :: rest) = true then
        r ++ replaceAll p r (List.drop (p.length - 1) rest)
      else c :: replaceAll p r rest := by
  rw [replaceAll, List.length_cons, replaceAllF]
  by_cases hcond : p ≠ [] ∧ begins p (c :: rest) = true
  · rw [if_pos hcond, if_pos hcond, replaceAll]
    rw [replaceAllF_irrel p r rest.length _ _ (by simp [List.length_drop]) le_rfl]
  · rw [if_neg hcond, if_neg hcond, replaceAll]

/-- begins holds exactly for list prefixes. -/
theorem begins_iff_append (p : List Char) :
    ∀ s, begins p s = true ↔ ∃ t, s = p ++ t := by
  induction p with
  | nil => intro s; simp [begins]
  | cons a p' ih =>
    intro s
    cases s with
    | nil => simp [begins]
    | cons b s' =>
      by_cases hab : a = b
      · subst hab
        simp [begins, ih s']
      · simp only [begins, if_neg hab, Bool.false_eq_true, false_iff, not_exists]
        intro t ht
        injection ht with h1 _
        exact hab h1.symm

/-- An occurrence in a tail is an occurrence. -/
theorem occursIn_of_tail (p : List Char) (c : Char) (rest : List Char)
    (h : occursIn p rest = true) : occursIn p (c :: rest) = true := by
  rw [occursIn, h, Bool.or_true]

/-- An occurrence in a dropped suffix is an occurrence. -/
theorem occursIn_of_drop (p : List Char) :
    ∀ (n : Nat) (s : List Char),
    occursIn p (List.drop n s) = true → occursIn p s = true := by
  intro n
  induction n with
  | zero => intro s h; simpa using h
  | succ m ih =>
    intro s h
    cases s with
    | nil => simpa using h
    | cons c rest =>
      rw [List.drop_succ_cons] at h
      exact occursIn_of_tail p c rest (ih rest h)

/-- If a newline-free non-empty q starts the output of replacing p by a
newline, then q already started the input. -/
theorem begins_replaceAll_reflect (p q : List Char) (hq : q ≠ [])
    (hnl : '\n' ∉ q) :
    ∀ s, begins q (replaceAll p ['\n'] s) = true → begins q s = true
  | [] => by
    intro h
    rw [replaceAll] at h
    cases q with
    | nil => exact absurd rfl hq
    | cons a q' => simp [begins] at h
  | c :: rest => by
    intro h
    rw [replaceAll_cons] at h
    split_ifs at h with hcond
    · obtain ⟨a, q', rfl⟩ : ∃ a q', q = a :: q' := by
        cases q with
        | nil => exact absurd rfl hq
        | cons a q' => exact ⟨a, q', rfl⟩
      rw [List.singleton_append, begins] at h
      split_ifs at h with ha
      exact absurd (ha ▸ List.mem_cons_self a q') hnl
    · cases q with
      | nil => exact absurd rfl hq
      | cons a q' =>
        rw [begins] at h ⊢
        split_ifs at h ⊢ with hac
        by_cases hq' : q' = []
        · subst hq'
          rfl
        · exact begins_replaceAll_reflect p q' hq'
            (fun hm => hnl (List.mem_cons_of_mem a hm)) rest h

/-- After replacing every occurrence of a newline-free non-empty p by a
newline, p no longer occurs. -/
theorem occursIn_replaceAll_self (p : List Char) (hp : p ≠ [])
    (hnl : '\n' ∉ p) :
    ∀ s, occursIn p (replaceAll p ['\n'] s) = false
  | [] => by
    rw [replaceAll]
    cases p with
    | nil => exact absurd rfl hp
    | cons a p' => simp [occursIn, begins]
  | c :: rest => by
    rw [replaceAll_cons]
    split_ifs with hcond
    · rw [List.singleton_append, occursIn]
      have h1 : begins p ('\n' :: replaceAll p ['\n']
          (List.drop (p.length - 1) rest)) = false := by
        cases p with
        | nil => exact absurd rfl hp
        | cons a p' =>
          rw [begins]
          split_ifs with ha
          · exact absurd (ha ▸ List.mem_cons_self a p') hnl
          · rfl
      rw [h1, Bool.false_or]
      exact occursIn_replaceAll_self p hp hnl (List.drop (p.length - 1) rest)
    · rw [occursIn]
      have h2 : occursIn p (replaceAll p ['\n'] rest) = false :=
        occursIn_replaceAll_self p hp hnl rest
      rw [h2, Bool.or_false]
      cases p with
      | nil => exact absurd rfl hp
      | cons a p' =>
        rw [begins]
        split_ifs with hac
        · subst hac
          by_cases hq' : p' = []
          · exfalso
            apply hcond
            refine ⟨hp, ?_⟩
            subst hq'
            rw [begins]
            rw [if_pos rfl]
            rfl
          · rw [Bool.eq_false_iff]
            intro hb
            apply hcond
            refine ⟨hp, ?_⟩
            have hb' : begins p' rest = true :=
              begins_replaceAll_reflect (a :: p') p' hq'
                (fun hm => hnl (List.mem_cons_of_mem a hm)) rest hb
            rw [begins, if_pos rfl]
            exact hb'
        · rfl
termination_by s => s.length
decreasing_by
  · simp [List.length_drop]
    omega
  · simp

/-- Replacing occurrences of any pattern by a newline cannot create an
occurrence of a newline-free non-empty q that was not already there. -/
theorem occursIn_replaceAll_preserve (p q : List Char) (hq : q ≠ [])
    (hnl : '\n' ∉ q) :
    ∀ s, occursIn q s = false → occursIn q (replaceAll p ['\n'] s) = false
  | [] => by
    intro h
    rw [replaceAll]
    exact h
  | c :: rest => by
    intro h
    rw [occursIn, Bool.or_eq_false_iff] at h
    rw [replaceAll_cons]
    split_ifs with hcond
    · rw [List.singleton_append, occursIn]
      have h1 : begins q ('\n' :: replaceAll p ['\n']
          (List.drop (p.length - 1) rest)) = false := by
        cases q with
        | nil => exact absurd rfl hq
        | cons a q' =>
          rw [begins]
          split_ifs with ha
          · exact absurd (ha ▸ List.mem_cons_self a q') hnl
          · rfl
      rw [h1, Bool.false_or]
      have hdrop : occursIn q (List.drop (p.length - 1) rest) = false := by
        rw [Bool.eq_false_iff]
        intro hocc
        have := occursIn_of_drop q (p.length - 1) rest hocc
        rw [this] at h
        exact Bool.true_eq_false ▸ h.2
      exact occursIn_replaceAll_preserve p q hq hnl
        (List.drop (p.length - 1) rest) hdrop
    · rw [occursIn]
      have h2 : occursIn q (replaceAll p ['\n'] rest) = false :=
        occursIn_replaceAll_preserve p q hq hnl rest h.2
      rw [h2, Bool.or_false]
      cases q with
      | nil => exact absurd rfl hq
      | cons a q' =>
        rw [begins]
        split_ifs with hac
        · subst hac
          by_cases hq' : q' = []
          · exfalso
            have : begins (a :: q') (a :: rest) = true := by
              subst hq'
              rw [begins, if_pos rfl]
              rfl
            rw [this] at h
            exact Bool.true_eq_false ▸ h.1
          · rw [Bool.eq_false_iff]
            intro hb
            have hb' : begins q' rest = true :=
              begins_replaceAll_reflect p q' hq'
                (fun hm => hnl (List.mem_cons_of_mem a hm)) rest hb
            have : begins (a :: q') (a :: rest) = true := by
              rw [begins, if_pos rfl]
              exact hb'
            rw [this] at h
            exact Bool.true_eq_false ▸ h.1
        · rfl
termination_by s => s.length
decreasing_by
  · simp [List.length_drop]
    omega
  · simp

/-- Replacing a pattern that does not occur is the identity. -/
theorem replaceAll_of_not_occurs (p r : List Char) :
    ∀ s, occursIn p s = false → replaceAll p r s = s
  | [] => by
    intro _
    rfl
  | c :: rest => by
    intro h
    rw [occursIn, Bool.or_eq_false_iff] at h
    rw [replaceAll_cons]
    split_ifs with hcond
    · rw [hcond.2] at h
      exact absurd h.1 (by simp)
    · rw [replaceAll_of_not_occurs p r rest h.2]

/-- No break variant survives sanitization: the first replacement
eliminates its own pattern and the later replacements cannot recreate
it, because every pattern is newline-free and replacements insert only
newlines. -/
theorem sanitize_chars_no_break (s : List Char) :
    occursIn "<br>".data (sanitize_chars s) = false ∧
    occursIn "<br/>".data (sanitize_chars s) = false ∧
    occursIn "<br />".data (sanitize_chars s) = false := by
  have hp1 : "<br>".data ≠ [] := by decide
  have hp2 : "<br/>".data ≠ [] := by decide
  have hp3 : "<br />".data ≠ [] := by decide
  have hn1 : '\n' ∉ "<br>".data := by decide
  have hn2 : '\n' ∉ "<br/>".data := by decide
  have hn3 : '\n' ∉ "<br />".data := by decide
  have hnd : ("\n".data : List Char) = ['\n'] := by decide
  rw [sanitize_chars, hnd]
  refine ⟨?_, ?_, ?_⟩
  · exact occursIn_replaceAll_preserve _ _ hp1 hn1 _
      (occursIn_replaceAll_preserve _ _ hp1 hn1 _
        (occursIn_replaceAll_self _ hp1 hn1 s))
  · exact occursIn_replaceAll_preserve _ _ hp2 hn2 _
      (occursIn_replaceAll_self _ hp2 hn2 _)
  · exact occursIn_replaceAll_self _ hp3 hn3 _

/-- Sanitization is idempotent on the character level. -/
theorem sanitize_chars_idem (s : List Char) :
    sanitize_chars (sanitize_chars s) = sanitize_chars s := by
  obtain ⟨h1, h2, h3⟩ := sanitize_chars_no_break s
  conv_lhs => rw [sanitize_chars]
  rw [replaceAll_of_not_occurs _ _ _ h1, replaceAll_of_not_occurs _ _ _ h2,
    replaceAll_of_not_occurs _ _ _ h3]

/-- Claim C7: sanitize_text is idempotent: sanitizing already-sanitized
text is a no-op, where sanitize_text replaces the three HTML break
variants with a newline, left to right and non-overlapping, and
returns empty input unchanged rather than failing. -/
theorem claim_C7_sanitize_idempotent (x : String) :
    sanitize_text (sanitize_text x) = sanitize_text x := by
  by_cases hx : x = ""
  · subst hx
    rfl
  · have hin : sanitize_text x = ⟨sanitize_chars x.data⟩ := by
      rw [sanitize_text, if_neg hx]
    rw [hin, sanitize_text]
    split_ifs with h2
    · rfl
    · exact congrArg String.mk (sanitize_chars_idem x.data)

/-- ends_with holds exactly for string suffixes on the character
level. -/
theorem ends_with_iff (s p : String) :
    ends_with s p = true ↔ ∃ u, s.data = u ++ p.data := by
  rw [ends_with, begins_iff_append]
  constructor
  · rintro ⟨t, ht⟩
    refine ⟨t.reverse, ?_⟩
    have h2 := congrArg List.reverse ht
    simpa [List.reverse_append] using h2
  · rintro ⟨u, hu⟩
    refine ⟨u.reverse, ?_⟩
    rw [hu]
    simp [List.reverse_append]

/-- Replacing every occurrence of .md by .excalidraw.md in a string
that ends with .md produces a string that ends with .excalidraw.md:
the terminal occurrence cannot be straddled by an earlier one because
.md does not overlap itself. -/
theorem replaceAll_md_suffix : ∀ (u : List Char), ∃ w,
    replaceAll ".md".data ".excalidraw.md".data (u ++ ".md".data) =
      w ++ ".excalidraw.md".data
  | [] => ⟨[], by decide⟩
  | c :: u' => by
    have hmd : (".md".data : List Char) = ['.', 'm', 'd'] := by decide
    rw [List.cons_append, replaceAll_cons]
    split_ifs with hcond
    · rcases u' with _ | ⟨a, _ | ⟨b, u''⟩⟩
      · exfalso
        rw [hmd] at hcond
        simp [begins] at hcond
      · exfalso
        rw [hmd] at hcond
        simp [begins] at hcond
      · have hdrop : List.drop (".md".data.length - 1)
            ((a :: b :: u'') ++ ".md".data) = u'' ++ ".md".data := by
          rw [show (".md".data.length - 1) = 2 by decide]
          rfl
        rw [hdrop]
        obtain ⟨w', hw⟩ := replaceAll_md_suffix u''
        exact ⟨".excalidraw.md".data ++ w', by rw [hw, List.append_assoc]⟩
    · obtain ⟨w', hw⟩ := replaceAll_md_suffix u'
      exact ⟨c :: w', by rw [hw, List.cons_append]⟩
termination_by u => u.length
decreasing_by
  · simp
    omega
  · simp

/-- Claim C10: the path passed to put_content always ends with the
suffix .excalidraw.md; a path already carrying that suffix passes
through unchanged, a path ending in .md (but not .excalidraw.md) has
its .md occurrences rewritten to .excalidraw.md, and any other path
gets .excalidraw.md appended. -/
theorem claim_C10_excalidraw_path (fp : String) :
    ends_with (ensure_excalidraw_path fp) ".excalidraw.md" = true ∧
    (ends_with fp ".excalidraw.md" = true → ensure_excalidraw_path fp = fp) ∧
    (ends_with fp ".excalidraw.md" = false → ends_with fp ".md" = true →
      ensure_excalidraw_path fp = pyReplace fp ".md" ".excalidraw.md") ∧
    (ends_with fp ".excalidraw.md" = false → ends_with fp ".md" = false →
      ensure_excalidraw_path fp = fp ++ ".excalidraw.md") := by
  refine ⟨?_, ?_, ?_, ?_⟩
  · rw [ensure_excalidraw_path]
    split_ifs with h1 h2
    · exact h1
    · rw [ends_with_iff] at h2
      obtain ⟨u, hu⟩ := h2
      obtain ⟨w, hw⟩ := replaceAll_md_suffix u
      rw [ends_with_iff]
      exact ⟨w, by rw [pyReplace, hu] at *; exact hw⟩
    · rw [ends_with_iff]
      exact ⟨fp.data, by simp⟩
  · intro h1
    rw [ensure_excalidraw_path, if_pos h1]
  · intro h1 h2
    rw [ensure_excalidraw_path, if_neg (by rw [h1]; exact Bool.false_ne_true),
      if_pos h2]
  · intro h1 h2
    rw [ensure_excalidraw_path, if_neg (by rw [h1]; exact Bool.false_ne_true),
      if_neg (by rw [h2]; exact Bool.false_ne_true)]

/-- Witness for C10 at the three path shapes: an .excalidraw.md path is
unchanged, an .md path is rewritten, a bare path gets the suffix, and a
path with two .md occurrences still ends with the suffix. -/
theorem claim_C10_witness :
    ensure_excalidraw_path "drawing.excalidraw.md" = "drawing.excalidraw.md" ∧
    ensure_excalidraw_path "notes.md" = "notes.excalidraw.md" ∧
    ensure_excalidraw_path "sketch" = "sketch.excalidraw.md" ∧
    ends_with (ensure_excalidraw_path "a.md.b.md") ".excalidraw.md" = true := by
  refine ⟨(claim_C10_excalidraw_path "drawing.excalidraw.md").2.1 (by decide),
    ?_, ?_, (claim_C10_excalidraw_path "a.md.b.md").1⟩
  · rw [(claim_C10_excalidraw_path "notes.md").2.2.1 (by decide) (by decide)]
    decide
  · rw [(claim_C10_excalidraw_path "sketch").2.2.2 (by decide) (by decide)]
    rfl
